import Mathlib

/-!
Verification of the data-transformation pipeline of `src/app.py`
(gpawank4/sales_prediction): a shallow embedding of the pandas code paths the
program exercises — `clean_data`, `add_aggregated_features`, and the
load-and-transform section of `main` — with the properties of the spec proved
or refuted against it.  Cells are modelled exactly (missing values, rational
numbers, strings); frames are an ordered schema plus ordered rows.
-/

/-- A cell of the tabular dataset: pandas cells here are missing (`NaN`),
numeric, or strings.  Numeric cells are modelled with exact rationals. -/
inductive Value : Type where
  | null : Value
  | num : ℚ → Value
  | str : String → Value
deriving DecidableEq

/-- A `pandas.DataFrame`: an ordered list of column names and the rows, each
row an ordered list of cells aligned with the columns. -/
structure DataFrame : Type where
  cols : List String
  rows : List (List Value)
deriving DecidableEq

/-- Every row has one cell per column (true of every real pandas frame). -/
abbrev DataFrame.Aligned (df : DataFrame) : Prop :=
  ∀ r ∈ df.rows, r.length = df.cols.length

/-- Position of column `c` in a schema; one past the end when absent. -/
def colIdx : List String → String → Nat
  | [], _ => 0
  | c' :: cs, c => if c' = c then 0 else colIdx cs c + 1

/-- The cell at position `i` of a row; `null` past the end. -/
def cellAt : List Value → Nat → Value
  | [], _ => Value.null
  | v :: _, 0 => v
  | _ :: vs, n + 1 => cellAt vs n

/-- Rewrite the cell at position `i` of a row through `f` (no-op past the end). -/
def setCell : Nat → (Value → Value) → List Value → List Value
  | _, _, [] => []
  | 0, f, v :: vs => f v :: vs
  | n + 1, f, v :: vs => v :: setCell n f vs

/-- `row[c]`: the cell of row `r` in column `c` of schema `cols`. -/
def getVal (cols : List String) (c : String) (r : List Value) : Value :=
  cellAt r (colIdx cols c)

/-- `Series.fillna 0` on one cell: a missing value becomes the number 0
(src/app.py line 32). -/
def fillCell : Value → Value
  | Value.null => Value.num 0
  | v => v

/-- `df['Sales'] = df['Sales'].fillna(0)` (src/app.py line 32): the frame with
every missing cell of the `Sales` column replaced by 0.  In pandas this
column assignment updates the frame object itself, so it is visible to the
caller of `clean_data`. -/
def fillSales (df : DataFrame) : DataFrame :=
  { cols := df.cols
    rows := df.rows.map (setCell (colIdx df.cols "Sales") fillCell) }

/-- The boolean mask `df['Sales'] >= 0` on one row (src/app.py line 34).  On
the numeric cells the data model prescribes for `Sales`, pandas compares the
number with 0; a missing cell compares `False` (`NaN >= 0` is `False`).
Non-numeric cells are outside the modelled domain (pandas would raise on the
comparison), and the theorems below exclude them by hypothesis. -/
def salesNonneg (cols : List String) (r : List Value) : Bool :=
  match getVal cols "Sales" r with
  | Value.num q => decide (0 ≤ q)
  | _ => false

/-- `clean_data` (src/app.py lines 23-35) with the caller's frame made
explicit.  The first component is the state of the argument frame after the
call: line 32 assigns a column of the argument in place, while line 34 only
rebinds the local name `df` to the filtered frame, which the function then
returns (the second component).  When the `Sales` column is absent the frame
is returned as is. -/
def clean_data_full (df : DataFrame) : DataFrame × DataFrame :=
  if "Sales" ∈ df.cols then
    let filled := fillSales df
    (filled, { cols := filled.cols, rows := filled.rows.filter (fun r => salesNonneg filled.cols r) })
  else
    (df, df)

/-- The value `clean_data` returns to its caller. -/
def clean_data (df : DataFrame) : DataFrame :=
  (clean_data_full df).2

/-- Modelled from the spec (section 4.2): the mask for "Record whose measure
is negative", used only by `cleanSpec` below. -/
def negMeasure (cols : List String) (r : List Value) : Bool :=
  match getVal cols "Sales" r with
  | Value.num q => decide (q < 0)
  | _ => false

/-- Modelled from the spec (section 4.2), for comparison with `clean_data`:
replace every null measure with 0, then remove every Record whose measure is
negative; pass the frame through when the measure column is absent. -/
def cleanSpec (df : DataFrame) : DataFrame :=
  if "Sales" ∈ df.cols then
    let filled := fillSales df
    { cols := filled.cols, rows := filled.rows.filter (fun r => ! negMeasure filled.cols r) }
  else df

/-- Cells the data model allows in the measure column: numbers or nulls. -/
def measureCell : Value → Bool
  | Value.null => true
  | Value.num _ => true
  | Value.str _ => false

/-- Every `Sales` cell of the frame is a number or a null (section 3 of the
spec: the measure is numeric, may be null). -/
abbrev MeasuresWellTyped (df : DataFrame) : Prop :=
  ∀ r ∈ df.rows, measureCell (getVal df.cols "Sales" r) = true

/-- A cell as the number pandas arithmetic sees; the theorems only apply it
to numeric cells. -/
def toQ : Value → ℚ
  | Value.num q => q
  | _ => 0

/-- Cells that are numbers. -/
def numCell : Value → Bool
  | Value.num _ => true
  | _ => false

/-- Cells that are strings. -/
def strCell : Value → Bool
  | Value.str _ => true
  | _ => false

/-- Every `Sales` cell of the frame is a number (true of cleaned frames). -/
abbrev SalesNumeric (df : DataFrame) : Prop :=
  ∀ r ∈ df.rows, numCell (getVal df.cols "Sales" r) = true

/-- Every `Country` and `Segment` cell is a string (section 3 of the spec);
pandas `groupby` drops rows whose key holds a missing value, so frames with
non-string keys are outside the modelled domain. -/
abbrev KeysWellTyped (df : DataFrame) : Prop :=
  ∀ r ∈ df.rows, strCell (getVal df.cols "Country" r) = true ∧
    strCell (getVal df.cols "Segment" r) = true

/-- The three column names `add_aggregated_features` adds are not already in
the schema (with a clash, the pandas merge on line 48 would instead create
suffixed duplicates). -/
abbrev FreshAggCols (df : DataFrame) : Prop :=
  "avg_sales_by_group" ∉ df.cols ∧ "total_sales_by_group" ∉ df.cols ∧
    "sales_ratio" ∉ df.cols

/-- The GroupKey `(Country, Segment)` of a row (src/app.py line 44). -/
def keyOf (cols : List String) (r : List Value) : Value × Value :=
  (getVal cols "Country" r, getVal cols "Segment" r)

/-- The rows of `df` whose GroupKey is `k`: the partition
`df.groupby(['Country', 'Segment'])` (src/app.py line 44). -/
def groupRows (df : DataFrame) (k : Value × Value) : List (List Value) :=
  df.rows.filter (fun r => decide (keyOf df.cols r = k))

/-- The numeric `Sales` cells of group `k`: pandas aggregation skips missing
values. -/
def salesCells (df : DataFrame) (k : Value × Value) : List ℚ :=
  (groupRows df k).filterMap (fun r =>
    match getVal df.cols "Sales" r with
    | Value.num q => some q
    | _ => none)

/-- The `sum` aggregate of the group's `Sales` (src/app.py line 44),
the column renamed `total_sales_by_group` on line 45. -/
def groupSum (df : DataFrame) (k : Value × Value) : ℚ :=
  (salesCells df k).sum

/-- The `mean` aggregate of the group's `Sales` (src/app.py line 44), the
column renamed `avg_sales_by_group` on line 45: sum of the group's numeric
cells over their count.  A key realised by a row has a nonempty group, so
the count is positive on the frames the theorems quantify over. -/
def groupMean (df : DataFrame) (k : Value × Value) : ℚ :=
  groupSum df k / (salesCells df k).length

/-- The comparison `row['total_sales_by_group'] != 0` of the lambda on
src/app.py line 52 (`NaN != 0` is `True` in pandas, hence the non-numeric
cases; on the frames built by the merge the cell is always numeric). -/
def neZeroCell : Value → Bool
  | Value.num q => decide (q ≠ 0)
  | _ => true

/-- The row function applied on src/app.py lines 51-54:
`row['Sales'] / row['total_sales_by_group'] if row['total_sales_by_group'] != 0 else 0`. -/
def ratioFun (cols : List String) (r : List Value) : ℚ :=
  if neZeroCell (getVal cols "total_sales_by_group" r)
  then toQ (getVal cols "Sales" r) / toQ (getVal cols "total_sales_by_group" r)
  else 0

/-- `add_aggregated_features` (src/app.py lines 37-55).  The groupby/agg on
line 44 yields one row per realised GroupKey, so its keys are unique and the
left merge on line 48 matches every row of `df` exactly once: it keeps the
rows of `df` in order and appends the group's mean and sum after the existing
columns.  Line 51 then appends the row-wise `sales_ratio` column. -/
def add_aggregated_features (df : DataFrame) : DataFrame :=
  let mergedCols := df.cols ++ ["avg_sales_by_group", "total_sales_by_group"]
  let mergedRows := df.rows.map (fun r =>
    r ++ [Value.num (groupMean df (keyOf df.cols r)),
          Value.num (groupSum df (keyOf df.cols r))])
  { cols := mergedCols ++ ["sales_ratio"]
    rows := mergedRows.map (fun r => r ++ [Value.num (ratioFun mergedCols r)]) }

/-- Canonical value of the `sales_ratio` cell of a row, in terms of the input
frame: the lemmas below show every output row of `add_aggregated_features`
carries it. -/
def ratioQ (df : DataFrame) (r : List Value) : ℚ :=
  if groupSum df (keyOf df.cols r) = 0 then 0
  else toQ (getVal df.cols "Sales" r) / groupSum df (keyOf df.cols r)

/-- Canonical form of an output row of `add_aggregated_features`:
the input row with the three appended cells. -/
def extRow (df : DataFrame) (r : List Value) : List Value :=
  r ++ [Value.num (groupMean df (keyOf df.cols r)),
        Value.num (groupSum df (keyOf df.cols r)),
        Value.num (ratioQ df r)]

/-! ## The load-and-transform section of `main` (src/app.py lines 120-131)

The module imports only `streamlit`, `pandas` and `plotly.express`
(lines 1-3); module scope also binds the four functions it defines.  The
names `requests` (line 121, 122, 126) and `io` (line 124) are never bound,
so evaluating them raises `NameError`. -/

/-- Names bound at module scope of src/app.py. -/
def moduleBoundNames : List String :=
  ["st", "pd", "px", "load_data", "clean_data", "add_aggregated_features", "main"]

/-- Outcome of the HTTP fetch `requests.get(github_url)` would have: the body
on a success status, an exception for a transport failure (unreachable
source), or a response whose non-success status makes `raise_for_status`
raise.  Both exception classes derive `requests.exceptions.RequestException`. -/
inductive FetchOutcome : Type where
  | success : FetchOutcome
  | transportFailure : FetchOutcome
  | badStatus : Nat → FetchOutcome
deriving DecidableEq

/-- Observable outcome of running the pipeline section of `main`. -/
structure MainRun : Type where
  /-- Number of `st.error` messages shown to the user (line 127). -/
  errorsShown : Nat
  /-- A Dataset was parsed and bound to `data` (line 124). -/
  datasetProduced : Bool
  /-- `clean_data` was applied to a Dataset (line 129). -/
  cleanerRan : Bool
  /-- `add_aggregated_features` was applied to a Dataset (line 130). -/
  aggregatorRan : Bool
  /-- The chart sections rendered (lines 132-231). -/
  presenterRan : Bool
  /-- Name of an exception that escapes `main`, if one does. -/
  uncaughtExn : Option String
deriving DecidableEq

/-- Lines 120-131 of src/app.py as a step-by-step control-flow model.  Name
resolution comes first: `requests.get` on line 121 looks up `requests`, which
is unbound, so a `NameError` is raised; matching it against the handler on
line 126 evaluates `requests.exceptions.RequestException`, which raises
`NameError` again, so nothing is caught, `st.error` on line 127 never runs,
`data` is never bound, and `main` aborts before line 129.  The branch with
`requests` bound records what the lines as written would then do: on a fetch
failure the handler shows the error but control falls through to line 129,
where the unbound `data` raises an uncaught `NameError`; on a success,
line 124 evaluates `io.StringIO` and `io` is unbound too, raising a
`NameError` that `except requests.exceptions.RequestException` does not
catch. -/
def runMainLoad (fetch : FetchOutcome) : MainRun :=
  if "requests" ∈ moduleBoundNames then
    match fetch with
    | FetchOutcome.success =>
      if "io" ∈ moduleBoundNames then
        { errorsShown := 0, datasetProduced := true, cleanerRan := true,
          aggregatorRan := true, presenterRan := true, uncaughtExn := none }
      else
        { errorsShown := 0, datasetProduced := false, cleanerRan := false,
          aggregatorRan := false, presenterRan := false,
          uncaughtExn := some "NameError" }
    | _ =>
      { errorsShown := 1, datasetProduced := false, cleanerRan := false,
        aggregatorRan := false, presenterRan := false,
        uncaughtExn := some "NameError" }
  else
    { errorsShown := 0, datasetProduced := false, cleanerRan := false,
      aggregatorRan := false, presenterRan := false,
      uncaughtExn := some "NameError" }

/-- The row at position `i` of a list of rows; `[]` past the end. -/
def rowAt : List (List Value) → Nat → List Value
  | [], _ => []
  | r :: _, 0 => r
  | _ :: rs, n + 1 => rowAt rs n

/-- Concrete frame of the spec's cleaning scenario (section 8): a null, a
negative and a positive measure in one group. -/
def dfScenario : DataFrame :=
  { cols := ["Sales", "Country", "Segment"]
    rows := [[Value.null, Value.str "A", Value.str "X"],
             [Value.num (-5), Value.str "A", Value.str "X"],
             [Value.num 10, Value.str "A", Value.str "X"]] }

/-- Concrete cleaned frame with a positive-sum group `(A, X)` and a
zero-sum group `(B, Y)`. -/
def dfAgg : DataFrame :=
  { cols := ["Sales", "Country", "Segment"]
    rows := [[Value.num 0, Value.str "A", Value.str "X"],
             [Value.num 10, Value.str "A", Value.str "X"],
             [Value.num 0, Value.str "B", Value.str "Y"]] }

/-- Concrete frame without a `Sales` column. -/
def dfNoSales : DataFrame :=
  { cols := ["Country", "Segment"]
    rows := [[Value.str "A", Value.str "X"]] }

/-! ## Lemmas on rows, schemas and cells -/

theorem setCell_length (i : Nat) (f : Value → Value) (r : List Value) :
    (setCell i f r).length = r.length := by
  induction r generalizing i with
  | nil => cases i <;> rfl
  | cons v vs ih =>
    cases i with
    | zero => rfl
    | succ n => simpa [setCell] using ih n

theorem cellAt_setCell (i : Nat) (f : Value → Value) (r : List Value)
    (h : i < r.length) : cellAt (setCell i f r) i = f (cellAt r i) := by
  induction r generalizing i with
  | nil => simp at h
  | cons v vs ih =>
    cases i with
    | zero => rfl
    | succ n => exact ih n (by simpa using h)

theorem setCell_eq_self (i : Nat) (f : Value → Value) (r : List Value)
    (h : f (cellAt r i) = cellAt r i) : setCell i f r = r := by
  induction r generalizing i with
  | nil => cases i <;> rfl
  | cons v vs ih =>
    cases i with
    | zero =>
      have hv : f v = v := h
      simp [setCell, hv]
    | succ n => simpa [setCell] using ih n h

theorem cellAt_append_left (r s : List Value) (i : Nat) (h : i < r.length) :
    cellAt (r ++ s) i = cellAt r i := by
  induction r generalizing i with
  | nil => simp at h
  | cons v vs ih =>
    cases i with
    | zero => rfl
    | succ n => exact ih n (by simpa using h)

theorem cellAt_append_right (r s : List Value) (j : Nat) :
    cellAt (r ++ s) (r.length + j) = cellAt s j := by
  induction r with
  | nil => simp [cellAt]
  | cons v vs ih =>
    have : vs.length + 1 + j = (vs.length + j) + 1 := by omega
    simpa [cellAt, this] using ih

theorem colIdx_lt_length (cols : List String) (c : String) (h : c ∈ cols) :
    colIdx cols c < cols.length := by
  induction cols with
  | nil => simp at h
  | cons c' cs ih =>
    simp only [colIdx]
    by_cases hc : c' = c
    · simp [hc]
    · have hm : c ∈ cs := by
        rcases List.mem_cons.mp h with h1 | h1
        · exact absurd h1.symm hc
        · exact h1
      simpa [hc, Nat.succ_lt_succ_iff] using ih hm

theorem colIdx_append_of_mem (l₁ l₂ : List String) (c : String) (h : c ∈ l₁) :
    colIdx (l₁ ++ l₂) c = colIdx l₁ c := by
  induction l₁ with
  | nil => simp at h
  | cons c' cs ih =>
    simp only [List.cons_append, colIdx]
    by_cases hc : c' = c
    · simp [hc]
    · have hm : c ∈ cs := by
        rcases List.mem_cons.mp h with h1 | h1
        · exact absurd h1.symm hc
        · exact h1
      simp [hc, ih hm]

theorem colIdx_append_of_not_mem (l₁ l₂ : List String) (c : String) (h : c ∉ l₁) :
    colIdx (l₁ ++ l₂) c = l₁.length + colIdx l₂ c := by
  induction l₁ with
  | nil => simp [colIdx]
  | cons c' cs ih =>
    have hc : c' ≠ c := fun e => h (e ▸ List.mem_cons_self c' cs)
    have h2 : c ∉ cs := fun hm => h (List.mem_cons_of_mem _ hm)
    show (if c' = c then 0 else colIdx (cs ++ l₂) c + 1) = (cs.length + 1) + colIdx l₂ c
    rw [if_neg hc, ih h2]
    omega

theorem getVal_append_row (cols extra : List String) (c : String) (r s : List Value)
    (hc : c ∈ cols) (hr : r.length = cols.length) :
    getVal (cols ++ extra) c (r ++ s) = getVal cols c r := by
  unfold getVal
  rw [colIdx_append_of_mem _ _ _ hc, cellAt_append_left]
  rw [hr]
  exact colIdx_lt_length _ _ hc

theorem getVal_new_col (cols extra : List String) (c : String) (r s : List Value)
    (hc : c ∉ cols) (hr : r.length = cols.length) :
    getVal (cols ++ extra) c (r ++ s) = getVal extra c s := by
  unfold getVal
  rw [colIdx_append_of_not_mem _ _ _ hc, ← hr, cellAt_append_right]

theorem rowAt_map (f : List Value → List Value) (rs : List (List Value)) (i : Nat)
    (h : i < rs.length) : rowAt (rs.map f) i = f (rowAt rs i) := by
  induction rs generalizing i with
  | nil => simp at h
  | cons r rs ih =>
    cases i with
    | zero => rfl
    | succ n => exact ih n (by simpa using h)

theorem rowAt_mem (rs : List (List Value)) (i : Nat) (h : i < rs.length) :
    rowAt rs i ∈ rs := by
  induction rs generalizing i with
  | nil => simp at h
  | cons r rs ih =>
    cases i with
    | zero => exact List.mem_cons_self r rs
    | succ n => exact List.mem_cons_of_mem _ (ih n (by simpa using h))

/-! ## Canonical form of the aggregated frame -/

theorem add_agg_cols (df : DataFrame) :
    (add_aggregated_features df).cols =
      df.cols ++ ["avg_sales_by_group", "total_sales_by_group", "sales_ratio"] := by
  simp [add_aggregated_features]

theorem ratioFun_merged (df : DataFrame) (r : List Value) (k : Value × Value)
    (hr : r.length = df.cols.length) (hS : "Sales" ∈ df.cols)
    (hT : "total_sales_by_group" ∉ df.cols) :
    ratioFun (df.cols ++ ["avg_sales_by_group", "total_sales_by_group"])
      (r ++ [Value.num (groupMean df k), Value.num (groupSum df k)]) =
      (if groupSum df k = 0 then 0
       else toQ (getVal df.cols "Sales" r) / groupSum df k) := by
  have h1 : getVal (df.cols ++ ["avg_sales_by_group", "total_sales_by_group"])
      "total_sales_by_group"
      (r ++ [Value.num (groupMean df k), Value.num (groupSum df k)]) =
      Value.num (groupSum df k) := by
    rw [getVal_new_col _ _ _ _ _ hT hr]
    simp [getVal, colIdx, cellAt]
  have h2 : getVal (df.cols ++ ["avg_sales_by_group", "total_sales_by_group"]) "Sales"
      (r ++ [Value.num (groupMean df k), Value.num (groupSum df k)]) =
      getVal df.cols "Sales" r := getVal_append_row _ _ _ _ _ hS hr
  unfold ratioFun
  rw [h1, h2]
  by_cases h0 : groupSum df k = 0
  · simp [neZeroCell, h0]
  · simp [neZeroCell, h0, toQ]

theorem add_agg_rows (df : DataFrame) (hA : df.Aligned) (hS : "Sales" ∈ df.cols)
    (hT : "total_sales_by_group" ∉ df.cols) :
    (add_aggregated_features df).rows = df.rows.map (extRow df) := by
  unfold add_aggregated_features extRow
  simp only [List.map_map]
  refine List.map_congr_left (fun r hr => ?_)
  simp only [Function.comp]
  rw [ratioFun_merged df r (keyOf df.cols r) (hA r hr) hS hT]
  simp [ratioQ]

theorem keyOf_extRow (df : DataFrame) (r : List Value)
    (hr : r.length = df.cols.length)
    (hC : "Country" ∈ df.cols) (hSeg : "Segment" ∈ df.cols) :
    keyOf (add_aggregated_features df).cols (extRow df r) = keyOf df.cols r := by
  unfold keyOf extRow
  rw [add_agg_cols, getVal_append_row _ _ _ _ _ hC hr,
    getVal_append_row _ _ _ _ _ hSeg hr]

theorem avg_cell_extRow (df : DataFrame) (r : List Value)
    (hr : r.length = df.cols.length) (hAv : "avg_sales_by_group" ∉ df.cols) :
    getVal (add_aggregated_features df).cols "avg_sales_by_group" (extRow df r) =
      Value.num (groupMean df (keyOf df.cols r)) := by
  unfold extRow
  rw [add_agg_cols, getVal_new_col _ _ _ _ _ hAv hr]
  simp [getVal, colIdx, cellAt]

theorem total_cell_extRow (df : DataFrame) (r : List Value)
    (hr : r.length = df.cols.length) (hT : "total_sales_by_group" ∉ df.cols) :
    getVal (add_aggregated_features df).cols "total_sales_by_group" (extRow df r) =
      Value.num (groupSum df (keyOf df.cols r)) := by
  unfold extRow
  rw [add_agg_cols, getVal_new_col _ _ _ _ _ hT hr]
  simp [getVal, colIdx, cellAt]

theorem ratio_cell_extRow (df : DataFrame) (r : List Value)
    (hr : r.length = df.cols.length) (hRa : "sales_ratio" ∉ df.cols) :
    getVal (add_aggregated_features df).cols "sales_ratio" (extRow df r) =
      Value.num (ratioQ df r) := by
  unfold extRow
  rw [add_agg_cols, getVal_new_col _ _ _ _ _ hRa hr]
  simp [getVal, colIdx, cellAt]

/-! ## Group aggregation lemmas -/

theorem filterMap_sales (cols : List String) (L : List (List Value))
    (hL : ∀ r ∈ L, numCell (getVal cols "Sales" r) = true) :
    (L.filterMap (fun r =>
      match getVal cols "Sales" r with
      | Value.num q => some q
      | _ => none)) = L.map (fun r => toQ (getVal cols "Sales" r)) := by
  induction L with
  | nil => rfl
  | cons a L ih =>
    have ha := hL a (List.mem_cons_self a L)
    have ihL := ih (fun r hr => hL r (List.mem_cons_of_mem _ hr))
    cases hv : getVal cols "Sales" a with
    | null => rw [hv] at ha; simp [numCell] at ha
    | num q => simp [List.filterMap_cons, hv, toQ, ihL]
    | str s => rw [hv] at ha; simp [numCell] at ha

theorem salesCells_eq_map (df : DataFrame) (k : Value × Value)
    (hN : SalesNumeric df) :
    salesCells df k = (groupRows df k).map (fun r => toQ (getVal df.cols "Sales" r)) := by
  unfold salesCells
  exact filterMap_sales df.cols (groupRows df k)
    (fun r hr => hN r (List.mem_filter.mp hr).1)

theorem sum_map_div (l : List (List Value)) (g : List Value → ℚ) (c : ℚ) :
    (l.map (fun r => g r / c)).sum = (l.map g).sum / c := by
  induction l with
  | nil => simp
  | cons r rs ih => simp [ih, add_div]

/-! ## Cleaner lemmas -/

theorem getVal_fill_row (df : DataFrame) (r : List Value)
    (hr : r.length = df.cols.length) (hS : "Sales" ∈ df.cols) :
    getVal df.cols "Sales" (setCell (colIdx df.cols "Sales") fillCell r) =
      fillCell (getVal df.cols "Sales" r) := by
  unfold getVal
  exact cellAt_setCell _ _ _ (by rw [hr]; exact colIdx_lt_length _ _ hS)

theorem clean_data_fixed (df : DataFrame) (hS : "Sales" ∈ df.cols)
    (h : ∀ r ∈ df.rows, salesNonneg df.cols r = true) : clean_data df = df := by
  simp only [clean_data, clean_data_full, if_pos hS]
  have hfillrow : ∀ r ∈ df.rows, setCell (colIdx df.cols "Sales") fillCell r = r := by
    intro r hr
    have h1 := h r hr
    unfold salesNonneg getVal at h1
    apply setCell_eq_self
    cases hv : cellAt r (colIdx df.cols "Sales") with
    | null => rw [hv] at h1; simp at h1
    | num q => rfl
    | str s => rw [hv] at h1; simp at h1
  have hrows : (fillSales df).rows = df.rows := by
    unfold fillSales
    calc df.rows.map (setCell (colIdx df.cols "Sales") fillCell)
        = df.rows.map id := List.map_congr_left hfillrow
      _ = df.rows := List.map_id df.rows
  show { cols := (fillSales df).cols,
         rows := (fillSales df).rows.filter
           (fun r => salesNonneg (fillSales df).cols r) } = df
  rw [show (fillSales df).cols = df.cols from rfl, hrows,
    List.filter_eq_self.mpr h]

/-! ## The claims -/

/-- C1: the spec says that when the Loader's fetch fails, a user-visible
error is emitted, no Dataset is produced and the downstream steps are
skipped.  The code as written cannot do this: `requests` and `io` are never
imported (src/app.py lines 1-3), so line 121 raises `NameError`, the handler
on line 126 cannot even be evaluated, no `st.error` message is shown, and
`main` aborts.  This theorem evaluates the control-flow model of lines
120-131 at the failing inputs: no error is shown (`errorsShown = 0`,
contradicting the claim), no Dataset is produced and no downstream step runs
(as the claim says), and an uncaught `NameError` escapes. -/
theorem c1_loader_failure_behaviour :
    runMainLoad FetchOutcome.transportFailure =
      { errorsShown := 0, datasetProduced := false, cleanerRan := false,
        aggregatorRan := false, presenterRan := false,
        uncaughtExn := some "NameError" } ∧
    runMainLoad (FetchOutcome.badStatus 404) =
      { errorsShown := 0, datasetProduced := false, cleanerRan := false,
        aggregatorRan := false, presenterRan := false,
        uncaughtExn := some "NameError" } ∧
    "requests" ∉ moduleBoundNames ∧ "io" ∉ moduleBoundNames :=
  ⟨by decide, by decide, by decide, by decide⟩

/-- C2: on every Dataset of the data model (aligned rows, a `Sales` column
holding numbers or nulls), `clean_data` returns exactly the frame the spec
describes (`cleanSpec`): every null measure replaced by 0 first, then every
Record with a negative measure removed — so a null measure survives as 0 and
a negative one is dropped. -/
theorem c2_cleaner_matches_spec (df : DataFrame) (hA : df.Aligned)
    (hS : "Sales" ∈ df.cols) (hT : MeasuresWellTyped df) :
    clean_data df = cleanSpec df := by
  simp only [clean_data, clean_data_full, cleanSpec, if_pos hS]
  show ({ cols := (fillSales df).cols,
          rows := (fillSales df).rows.filter
            (fun r => salesNonneg (fillSales df).cols r) } : DataFrame) =
       { cols := (fillSales df).cols,
         rows := (fillSales df).rows.filter
           (fun r => ! negMeasure (fillSales df).cols r) }
  have hfilter : (fillSales df).rows.filter (fun r => salesNonneg df.cols r) =
      (fillSales df).rows.filter (fun r => ! negMeasure df.cols r) := by
    apply List.filter_congr
    intro r' hr'
    obtain ⟨r, hr, rfl⟩ := List.mem_map.mp hr'
    have key := getVal_fill_row df r (hA r hr) hS
    have ht := hT r hr
    cases hv : getVal df.cols "Sales" r with
    | null =>
      rw [hv] at key
      simp [salesNonneg, negMeasure, key, fillCell]
    | num q =>
      rw [hv] at key
      simp only [salesNonneg, negMeasure, key, fillCell]
      rw [show (decide (0 ≤ q)) = decide (¬ q < 0) by simp [not_lt],
        decide_not]
    | str s => rw [hv] at ht; simp [measureCell] at ht
  exact congrArg _ hfilter

/-- C2 witness: the spec's own scenario frame (null, -5 and 10 in one
group) satisfies the hypotheses, and the theorem applies to it. -/
theorem c2_witness :
    MeasuresWellTyped dfScenario ∧ clean_data dfScenario = cleanSpec dfScenario :=
  ⟨by decide, c2_cleaner_matches_spec dfScenario (by decide) (by decide) (by decide)⟩

/-- C5: every Record of the frame `clean_data` returns has a numeric,
non-negative measure. -/
theorem c5_cleaned_measures_nonneg (df : DataFrame) (hS : "Sales" ∈ df.cols) :
    ∀ r ∈ (clean_data df).rows, ∃ q : ℚ,
      getVal (clean_data df).cols "Sales" r = Value.num q ∧ 0 ≤ q := by
  intro r hr
  simp only [clean_data, clean_data_full, if_pos hS] at hr ⊢
  have hp : salesNonneg (fillSales df).cols r = true := (List.mem_filter.mp hr).2
  unfold salesNonneg at hp
  cases hv : getVal (fillSales df).cols "Sales" r with
  | null => rw [hv] at hp; simp at hp
  | num q =>
    rw [hv] at hp
    exact ⟨q, rfl, by simpa using of_decide_eq_true hp⟩
  | str s => rw [hv] at hp; simp at hp

/-- C5 witness: the scenario frame has the `Sales` column, and the theorem
applies to it. -/
theorem c5_witness :
    "Sales" ∈ dfScenario.cols ∧
    (∀ r ∈ (clean_data dfScenario).rows, ∃ q : ℚ,
      getVal (clean_data dfScenario).cols "Sales" r = Value.num q ∧ 0 ≤ q) :=
  ⟨by decide, c5_cleaned_measures_nonneg dfScenario (by decide)⟩

/-- C6 counterexample: the Cleaner is not pure.  On the spec's scenario frame
(whose first Record has a null measure) the caller's frame after
`clean_data` returns — the first component of `clean_data_full` — differs
from the frame passed in: line 32 filled the null in place. -/
theorem c6_counterexample : (clean_data_full dfScenario).1 ≠ dfScenario := by
  decide

/-- C6 amended: `clean_data` returns a new logical Dataset for the filtering
step, but it first mutates its argument in place: after the call the
caller's frame is exactly `fillSales df` (the input with every null measure
replaced by 0), with all its rows still present; when no measure is null the
caller's frame is unchanged. -/
theorem c6_cleaner_mutates_only_null_measures (df : DataFrame)
    (hS : "Sales" ∈ df.cols) :
    (clean_data_full df).1 = fillSales df ∧
    (clean_data_full df).1.rows.length = df.rows.length ∧
    ((∀ r ∈ df.rows, getVal df.cols "Sales" r ≠ Value.null) →
      (clean_data_full df).1 = df) := by
  refine ⟨by simp [clean_data_full, if_pos hS], ?_, ?_⟩
  · simp [clean_data_full, if_pos hS, fillSales]
  · intro h
    simp only [clean_data_full, if_pos hS]
    show fillSales df = df
    have hfillrow : ∀ r ∈ df.rows,
        setCell (colIdx df.cols "Sales") fillCell r = r := by
      intro r hr
      have h1 := h r hr
      unfold getVal at h1
      apply setCell_eq_self
      cases hv : cellAt r (colIdx df.cols "Sales") with
      | null => exact absurd hv h1
      | num q => rfl
      | str s => rfl
    have hrows : df.rows.map (setCell (colIdx df.cols "Sales") fillCell) =
        df.rows :=
      calc df.rows.map (setCell (colIdx df.cols "Sales") fillCell)
          = df.rows.map id := List.map_congr_left hfillrow
        _ = df.rows := List.map_id df.rows
    show ({ cols := df.cols,
            rows := df.rows.map (setCell (colIdx df.cols "Sales") fillCell) } :
      DataFrame) = df
    rw [hrows]

/-- C6 witness: the scenario frame has the `Sales` column, and the amended
theorem applies to it. -/
theorem c6_witness :
    "Sales" ∈ dfScenario.cols ∧
    ((clean_data_full dfScenario).1 = fillSales dfScenario ∧
     (clean_data_full dfScenario).1.rows.length = dfScenario.rows.length ∧
     ((∀ r ∈ dfScenario.rows, getVal dfScenario.cols "Sales" r ≠ Value.null) →
       (clean_data_full dfScenario).1 = dfScenario)) :=
  ⟨by decide, c6_cleaner_mutates_only_null_measures dfScenario (by decide)⟩

/-- C7: the Cleaner is idempotent on the Datasets of the data model: cleaning
a cleaned frame changes nothing, since all surviving measures are numeric and
non-negative. -/
theorem c7_cleaner_idempotent (df : DataFrame) (_hA : df.Aligned)
    (_hT : MeasuresWellTyped df) :
    clean_data (clean_data df) = clean_data df := by
  by_cases hS : "Sales" ∈ df.cols
  · have hcols : (clean_data df).cols = df.cols := by
      simp only [clean_data, clean_data_full, if_pos hS]
      rfl
    have hmem : ∀ r ∈ (clean_data df).rows, salesNonneg df.cols r = true := by
      intro r hr
      simp only [clean_data, clean_data_full, if_pos hS] at hr
      exact (List.mem_filter.mp hr).2
    apply clean_data_fixed (clean_data df) (by rw [hcols]; exact hS)
    intro r hr
    rw [hcols]
    exact hmem r hr
  · have h1 : clean_data df = df := by simp [clean_data, clean_data_full, hS]
    rw [h1, h1]

/-- C7 witness: the theorem applies to the scenario frame. -/
theorem c7_witness :
    dfScenario.Aligned ∧
    clean_data (clean_data dfScenario) = clean_data dfScenario :=
  ⟨by decide, c7_cleaner_idempotent dfScenario (by decide) (by decide)⟩

/-- C8: on a frame without a `Sales` column, `clean_data` is the identity
(the function's body is a single guarded block, so nothing is raised). -/
theorem c8_no_sales_column_passthrough (df : DataFrame)
    (h : "Sales" ∉ df.cols) : clean_data df = df := by
  simp [clean_data, clean_data_full, h]

/-- C8 witness: a concrete frame without a `Sales` column. -/
theorem c8_witness : "Sales" ∉ dfNoSales.cols ∧ clean_data dfNoSales = dfNoSales :=
  ⟨by decide, c8_no_sales_column_passthrough dfNoSales (by decide)⟩

/-- C3: in the aggregated frame, for every realised GroupKey, the
`sales_ratio` cells of the group's Records sum to 1 when the group's Sales
total is positive, and every one of them is 0 when the total is 0 (not an
error and not a missing value). -/
theorem c3_ratio_sums (df : DataFrame) (hA : df.Aligned)
    (hS : "Sales" ∈ df.cols) (hC : "Country" ∈ df.cols)
    (hSeg : "Segment" ∈ df.cols) (hN : SalesNumeric df)
    (hF : FreshAggCols df) (_hK : KeysWellTyped df) :
    ∀ k ∈ df.rows.map (keyOf df.cols),
      (0 < groupSum df k →
        (((add_aggregated_features df).rows.filter
            (fun r => decide (keyOf (add_aggregated_features df).cols r = k))).map
          (fun r =>
            toQ (getVal (add_aggregated_features df).cols "sales_ratio" r))).sum = 1) ∧
      (groupSum df k = 0 →
        ∀ r ∈ (add_aggregated_features df).rows,
          keyOf (add_aggregated_features df).cols r = k →
          getVal (add_aggregated_features df).cols "sales_ratio" r = Value.num 0) := by
  obtain ⟨hFa, hFt, hFr⟩ := hF
  have hrows := add_agg_rows df hA hS hFt
  intro k _hk
  constructor
  · intro hpos
    have hne : groupSum df k ≠ 0 := ne_of_gt hpos
    rw [hrows, List.filter_map, List.map_map]
    have hfe : df.rows.filter
        ((fun r => decide (keyOf (add_aggregated_features df).cols r = k)) ∘ extRow df) =
        groupRows df k := by
      unfold groupRows
      apply List.filter_congr
      intro r hr
      simp only [Function.comp]
      rw [keyOf_extRow df r (hA r hr) hC hSeg]
    rw [hfe]
    have hmap : (groupRows df k).map
        ((fun r => toQ (getVal (add_aggregated_features df).cols "sales_ratio" r)) ∘
          extRow df) =
        (groupRows df k).map (fun r => toQ (getVal df.cols "Sales" r) / groupSum df k) := by
      apply List.map_congr_left
      intro r hr
      have hmem := (List.mem_filter.mp hr).1
      have hkey : keyOf df.cols r = k :=
        of_decide_eq_true (List.mem_filter.mp hr).2
      simp only [Function.comp]
      rw [ratio_cell_extRow df r (hA r hmem) hFr]
      unfold ratioQ
      rw [hkey, if_neg hne]
      rfl
    rw [hmap, sum_map_div,
      show ((groupRows df k).map (fun r => toQ (getVal df.cols "Sales" r))).sum =
        groupSum df k from by rw [groupSum, salesCells_eq_map df k hN]]
    exact div_self hne
  · intro h0 r hr hkey
    rw [hrows] at hr
    obtain ⟨r₀, hr₀, rfl⟩ := List.mem_map.mp hr
    rw [keyOf_extRow df r₀ (hA r₀ hr₀) hC hSeg] at hkey
    rw [ratio_cell_extRow df r₀ (hA r₀ hr₀) hFr]
    unfold ratioQ
    rw [hkey, if_pos h0]

/-- C3 witness: `dfAgg` has a positive-sum group `(A, X)` and a zero-sum
group `(B, Y)`, and the theorem applies to it. -/
theorem c3_witness :
    dfAgg.Aligned ∧
    (∀ k ∈ dfAgg.rows.map (keyOf dfAgg.cols),
      (0 < groupSum dfAgg k →
        (((add_aggregated_features dfAgg).rows.filter
            (fun r => decide (keyOf (add_aggregated_features dfAgg).cols r = k))).map
          (fun r =>
            toQ (getVal (add_aggregated_features dfAgg).cols "sales_ratio" r))).sum = 1) ∧
      (groupSum dfAgg k = 0 →
        ∀ r ∈ (add_aggregated_features dfAgg).rows,
          keyOf (add_aggregated_features dfAgg).cols r = k →
          getVal (add_aggregated_features dfAgg).cols "sales_ratio" r = Value.num 0)) :=
  ⟨by decide, c3_ratio_sums dfAgg (by decide) (by decide) (by decide) (by decide)
    (by decide) (by decide) (by decide)⟩

/-- C4: every Record of the aggregated frame carries
`sales_ratio = Sales / total_sales_by_group` when its group's total is
nonzero and `sales_ratio = 0` when the total is zero; the embedding of the
row function (`ratioFun`) is total, mirroring that the zero branch is
explicit in the code and no division error can be raised. -/
theorem c4_ratio_zero_guard (df : DataFrame) (hA : df.Aligned)
    (hS : "Sales" ∈ df.cols) (_hC : "Country" ∈ df.cols)
    (_hSeg : "Segment" ∈ df.cols) (_hN : SalesNumeric df)
    (hF : FreshAggCols df) (_hK : KeysWellTyped df) :
    ∀ i < df.rows.length,
      getVal (add_aggregated_features df).cols "sales_ratio"
        (rowAt (add_aggregated_features df).rows i) =
      Value.num
        (if groupSum df (keyOf df.cols (rowAt df.rows i)) = 0 then 0
         else toQ (getVal df.cols "Sales" (rowAt df.rows i)) /
           groupSum df (keyOf df.cols (rowAt df.rows i))) := by
  obtain ⟨hFa, hFt, hFr⟩ := hF
  have hrows := add_agg_rows df hA hS hFt
  intro i hi
  rw [hrows, rowAt_map _ _ _ hi,
    ratio_cell_extRow df _ (hA _ (rowAt_mem df.rows i hi)) hFr]
  rfl

/-- C4 witness: the theorem applies to `dfAgg`, whose groups include a
zero-total one. -/
theorem c4_witness :
    dfAgg.Aligned ∧
    (∀ i < dfAgg.rows.length,
      getVal (add_aggregated_features dfAgg).cols "sales_ratio"
        (rowAt (add_aggregated_features dfAgg).rows i) =
      Value.num
        (if groupSum dfAgg (keyOf dfAgg.cols (rowAt dfAgg.rows i)) = 0 then 0
         else toQ (getVal dfAgg.cols "Sales" (rowAt dfAgg.rows i)) /
           groupSum dfAgg (keyOf dfAgg.cols (rowAt dfAgg.rows i)))) :=
  ⟨by decide, c4_ratio_zero_guard dfAgg (by decide) (by decide) (by decide)
    (by decide) (by decide) (by decide) (by decide)⟩

/-- C9: the left merge keeps every Record (same number of rows), and every
Record at position `i` receives exactly its own group's mean and sum in the
`avg_sales_by_group` and `total_sales_by_group` columns. -/
theorem c9_join_broadcast (df : DataFrame) (hA : df.Aligned)
    (hS : "Sales" ∈ df.cols) (_hC : "Country" ∈ df.cols)
    (_hSeg : "Segment" ∈ df.cols) (_hN : SalesNumeric df)
    (hF : FreshAggCols df) (_hK : KeysWellTyped df) :
    (add_aggregated_features df).rows.length = df.rows.length ∧
    ∀ i < df.rows.length,
      getVal (add_aggregated_features df).cols "avg_sales_by_group"
        (rowAt (add_aggregated_features df).rows i) =
        Value.num (groupMean df (keyOf df.cols (rowAt df.rows i))) ∧
      getVal (add_aggregated_features df).cols "total_sales_by_group"
        (rowAt (add_aggregated_features df).rows i) =
        Value.num (groupSum df (keyOf df.cols (rowAt df.rows i))) := by
  obtain ⟨hFa, hFt, hFr⟩ := hF
  have hrows := add_agg_rows df hA hS hFt
  constructor
  · rw [hrows, List.length_map]
  · intro i hi
    have hm := rowAt_mem df.rows i hi
    rw [hrows, rowAt_map _ _ _ hi]
    exact ⟨avg_cell_extRow df _ (hA _ hm) hFa, total_cell_extRow df _ (hA _ hm) hFt⟩

/-- C9 witness: the theorem applies to `dfAgg`. -/
theorem c9_witness :
    dfAgg.Aligned ∧
    ((add_aggregated_features dfAgg).rows.length = dfAgg.rows.length ∧
    ∀ i < dfAgg.rows.length,
      getVal (add_aggregated_features dfAgg).cols "avg_sales_by_group"
        (rowAt (add_aggregated_features dfAgg).rows i) =
        Value.num (groupMean dfAgg (keyOf dfAgg.cols (rowAt dfAgg.rows i))) ∧
      getVal (add_aggregated_features dfAgg).cols "total_sales_by_group"
        (rowAt (add_aggregated_features dfAgg).rows i) =
        Value.num (groupSum dfAgg (keyOf dfAgg.cols (rowAt dfAgg.rows i)))) :=
  ⟨by decide, c9_join_broadcast dfAgg (by decide) (by decide) (by decide)
    (by decide) (by decide) (by decide) (by decide)⟩

/-- C10: the Aggregator preserves the frame it extends — same number of rows
in the same order, every pre-existing cell unchanged — and appends exactly
the three new columns `avg_sales_by_group`, `total_sales_by_group` and
`sales_ratio`. -/
theorem c10_frame_preserved (df : DataFrame) (hA : df.Aligned)
    (hS : "Sales" ∈ df.cols) (_hC : "Country" ∈ df.cols)
    (_hSeg : "Segment" ∈ df.cols) (_hN : SalesNumeric df)
    (hF : FreshAggCols df) (_hK : KeysWellTyped df) :
    (add_aggregated_features df).cols =
      df.cols ++ ["avg_sales_by_group", "total_sales_by_group", "sales_ratio"] ∧
    (add_aggregated_features df).rows.length = df.rows.length ∧
    ∀ i < df.rows.length, ∀ j < df.cols.length,
      cellAt (rowAt (add_aggregated_features df).rows i) j =
        cellAt (rowAt df.rows i) j := by
  obtain ⟨hFa, hFt, hFr⟩ := hF
  have hrows := add_agg_rows df hA hS hFt
  refine ⟨add_agg_cols df, ?_, ?_⟩
  · rw [hrows, List.length_map]
  · intro i hi j hj
    rw [hrows, rowAt_map _ _ _ hi]
    unfold extRow
    exact cellAt_append_left _ _ _
      (by rw [hA _ (rowAt_mem df.rows i hi)]; exact hj)

/-- C10 witness: the theorem applies to `dfAgg`. -/
theorem c10_witness :
    dfAgg.Aligned ∧
    ((add_aggregated_features dfAgg).cols =
      dfAgg.cols ++ ["avg_sales_by_group", "total_sales_by_group", "sales_ratio"] ∧
    (add_aggregated_features dfAgg).rows.length = dfAgg.rows.length ∧
    ∀ i < dfAgg.rows.length, ∀ j < dfAgg.cols.length,
      cellAt (rowAt (add_aggregated_features dfAgg).rows i) j =
        cellAt (rowAt dfAgg.rows i) j) :=
  ⟨by decide, c10_frame_preserved dfAgg (by decide) (by decide) (by decide)
    (by decide) (by decide) (by decide) (by decide)⟩
